import Mathlib

/-!
Verification development for the Sorare price bot (`bot.py`).

The bot is a thin orchestration script: two TTL-cached lookup functions
(`search_players`, `get_min_price`) over a remote GraphQL API, a two-state
Telegram conversation (`handle_text`, `handle_player_selection`) and a
keep-alive loop (`self_ping`).  We embed the functions shallowly:

* The remote API is an oracle, a function from the number of remote calls
  already made to the response of the next call; the global mutable caches
  become explicit state records threaded through the functions.
* Claims speak about calls "within the TTL window", so cache entries never
  expire in the model; capacity eviction is likewise not exercised by any
  claim and is not modelled.
* `TTLCache.get` returns `None` on a miss, modelled with `Option`;
  dictionary assignment is modelled by prepending to an association list
  read through `lookupCache` (first binding wins, i.e. overwrite).
* Python exceptions are modelled with `Except`: code inside a `try` body
  returns `Except PyExn α`, and the `except` clauses are the surrounding
  `match`.  Numeric strings are coerced with exact rational arithmetic
  (`float(...)` on the plain decimal literals the API returns).
-/

/-- Player record as produced by the search query (`bot.py` lines 58-68):
`slug` and `displayName` of one `nodes[]` entry. -/
structure Player where
  slug : String
  displayName : String
deriving DecidableEq, Repr

/-- Conversation state of the `ConversationHandler`: `ConversationHandler.END`
(awaiting a fresh name) or `SELECT_PLAYER` (awaiting a menu selection). -/
inductive ConvState where
  | awaitingName
  | awaitingSelection
deriving DecidableEq, Repr

/-- The user-visible replies sent by the handlers (`reply_text` calls),
abstracted from their literal Russian wording. -/
inductive Reply where
  | emptyName
  | notFound
  | menu (names : List String)
  | selectionError
  | noCards (displayName : String)
  | priceMsg (displayName : String) (price : ℚ)
deriving DecidableEq, Repr

/-- Per-conversation session data: `context.user_data`, which holds the
stored candidate list under the key `"players"` when present. -/
structure Session where
  players : Option (List Player)
deriving DecidableEq, Repr

/-- Result of one handler invocation: replies sent, the returned
conversation state, and the session data afterwards. -/
structure DialogOut where
  replies : List Reply
  conv : ConvState
  sess : Session
deriving DecidableEq, Repr

/-- `cache.get(key)` on an association-list cache: the value of the first
binding of `k`, or `none` on a miss (`TTLCache.get` returns `None`). -/
def lookupCache {α : Type} (c : List (String × α)) (k : String) : Option α :=
  (c.find? (fun e => e.1 == k)).map (fun e => e.2)

/-- Outcome of one remote search request, abstracted to the level
`search_players` consumes it: a successfully parsed player list, or any
caught failure (`RequestException` / `KeyError`), which yields `[]`. -/
inductive SearchResp where
  | ok (players : List Player)
  | fail
deriving Repr

/-- State owned by `search_players`: the `players_cache` and a counter of
remote calls made so far (the counter also indexes the oracle). -/
structure SearchState where
  players_cache : List (String × List Player)
  remoteCalls : Nat
deriving DecidableEq, Repr

/-- `search_players` (`bot.py` lines 52-89).  `cached = players_cache.get(name)`
followed by `if cached:` — note the truthiness test: a cached *empty* list is
falsy, so it is not served and the remote call is re-issued.  On a successful
response the parsed list (empty or not) is written to the cache; on a caught
failure the result is `[]` and the cache is untouched. -/
def search_players (remote : Nat → SearchResp) (st : SearchState) (name : String) :
    List Player × SearchState :=
  let callRemote : List Player × SearchState :=
    match remote st.remoteCalls with
    | .ok players =>
        (players,
          { players_cache := (name, players) :: st.players_cache,
            remoteCalls := st.remoteCalls + 1 })
    | .fail => ([], { st with remoteCalls := st.remoteCalls + 1 })
  match lookupCache st.players_cache name with
  | some cached => if cached.isEmpty then callRemote else (cached, st)
  | none => callRemote

/-- JSON values, for the response-shape analysis of `search_players`. -/
inductive Json where
  | null
  | bool (b : Bool)
  | num (q : ℚ)
  | str (s : String)
  | arr (elems : List Json)
  | obj (fields : List (String × Json))

/-- The Python exceptions that matter to the embedded code paths. -/
inductive PyExn where
  | attributeError
  | valueError
deriving DecidableEq, Repr

/-- Python `x.get(key, default)`: on a dict, the value bound to `key` or the
default; on any non-dict value (including `None`) the attribute access
raises `AttributeError`. -/
def pyGet (j : Json) (key : String) (default : Json) : Except PyExn Json :=
  match j with
  | .obj fields =>
      .ok (((fields.find? (fun e => e.1 == key)).map (fun e => e.2)).getD default)
  | _ => .error .attributeError

/-- The extraction chain of `bot.py` line 80:
`data.get("data", {}).get("football", {}).get("allPlayers", {}).get("nodes", [])`. -/
def extractNodes (data : Json) : Except PyExn Json := do
  let d ← pyGet data "data" (.obj [])
  let f ← pyGet d "football" (.obj [])
  let a ← pyGet f "allPlayers" (.obj [])
  pyGet a "nodes" (.arr [])

/-- One HTTP response as seen by `requests.post`: a raised transport error
(connection failure / timeout), or a status plus the JSON body when the body
decodes (`body = none` models a non-JSON body, whose `response.json()` raises
`requests.exceptions.JSONDecodeError`, a `RequestException`). -/
inductive HttpResp where
  | exn
  | resp (status : Nat) (body : Option Json)

/-- The remote-interaction part of `search_players` (`bot.py` lines 71-89) at
JSON level, tracking which exceptions escape.  `raise_for_status` raises
`HTTPError` (a `RequestException`) for status ≥ 400.  The `except` clauses
catch `RequestException` and `KeyError` and return `[]`; an
`AttributeError` raised by the `.get` chain on a non-dict value is caught by
neither and escapes.  On success the raw `nodes` value is returned. -/
def search_players_remote (r : HttpResp) : Except PyExn Json :=
  match r with
  | .exn => .ok (.arr [])
  | .resp status body =>
    if 400 ≤ status then .ok (.arr [])
    else
      match body with
      | none => .ok (.arr [])
      | some data => extractNodes data

/-- One card record of the pricing query: its `price` field, `none` when the
field is absent.  (The embedding assumes card records are JSON dicts with a
string `price`, the shape the pricing query yields.) -/
structure Card where
  price : Option String
deriving DecidableEq, Repr

/-- Numeric value of a decimal digit character. -/
def digitVal (c : Char) : Option Nat :=
  if c.isDigit then some (c.toNat - 48) else none

/-- Read a digit string left to right, accumulating its value; fails on any
non-digit character. -/
def parseDigitsAux : List Char → Nat → Option Nat
  | [], acc => some acc
  | c :: cs, acc =>
    match digitVal c with
    | some d => parseDigitsAux cs (acc * 10 + d)
    | none => none

/-- Split a character list at the first `'.'`: the part before it, and the
part after it when a dot occurs. -/
def splitDot : List Char → List Char × Option (List Char)
  | [] => ([], none)
  | c :: cs =>
    if c = '.' then ([], some cs)
    else
      let r := splitDot cs
      (c :: r.1, r.2)

/-- Python `float(s)` on the plain decimal literals the API returns
(optional sign, digits, optional single fractional part), as an exact
rational; `none` models a raised `ValueError`. -/
def parseDecimal (s : String) : Option ℚ :=
  let cs := s.toList
  let signAndBody : Bool × List Char :=
    match cs with
    | '-' :: rest => (true, rest)
    | '+' :: rest => (false, rest)
    | _ => (false, cs)
  let neg := signAndBody.1
  let parts := splitDot signAndBody.2
  match parts.2 with
  | none =>
    match parts.1 with
    | [] => none
    | _ =>
      match parseDigitsAux parts.1 0 with
      | some n => some (if neg then -(n : ℚ) else (n : ℚ))
      | none => none
  | some fracPart =>
    if parts.1.isEmpty && fracPart.isEmpty then none
    else
      match parseDigitsAux parts.1 0, parseDigitsAux fracPart 0 with
      | some n, some f =>
        let q : ℚ := (n : ℚ) + (f : ℚ) / ((10 : ℚ) ^ fracPart.length)
        some (if neg then -q else q)
      | _, _ => none

/-- The comprehension of `bot.py` line 126:
`[float(card["price"]) for card in cards if card.get("price")]`, evaluated
left to right.  A card whose `price` is absent or `""` (falsy) is skipped; a
selected price that does not coerce raises `ValueError`, aborting the whole
comprehension. -/
def collectPrices : List Card → Except PyExn (List ℚ)
  | [] => .ok []
  | c :: cs =>
    match c.price with
    | none => collectPrices cs
    | some s =>
      if s = "" then collectPrices cs
      else
        match parseDecimal s with
        | none => .error .valueError
        | some q =>
          match collectPrices cs with
          | .ok qs => .ok (q :: qs)
          | .error e => .error e

/-- The prices the comprehension selects, as a pure filter: the parsed
`price` of every card whose price is present, non-empty and coercible. -/
def selectedPrices (cards : List Card) : List ℚ :=
  cards.filterMap (fun c =>
    match c.price with
    | none => none
    | some s => if s = "" then none else parseDecimal s)

/-- Outcome of one remote pricing request, at the level `get_min_price`
consumes it: a caught failure (`RequestException` / `KeyError`), or a parsed
response whose `player_data` is falsy (`player` missing or null — the
missing-player case), or the card list of a found player. -/
inductive PriceResp where
  | fail
  | ok (player : Option (List Card))
deriving Repr

/-- State owned by `get_min_price`: the `prices_cache` and the remote-call
counter indexing the oracle. -/
structure PriceState where
  prices_cache : List (String × ℚ)
  remoteCalls : Nat
deriving DecidableEq, Repr

/-- `get_min_price` (`bot.py` lines 91-140).  The cache check is
`if cached is not None`; only rationals are ever stored, so any hit is
served.  On a miss one remote call is made.  Every path that returns `None`
(caught failure, falsy `player_data`, `ValueError` during coercion, empty
price list) leaves the cache untouched; only a computed minimum is written. -/
def get_min_price (remote : Nat → PriceResp) (st : PriceState) (slug : String) :
    Option ℚ × PriceState :=
  match lookupCache st.prices_cache slug with
  | some v => (some v, st)
  | none =>
    let st' : PriceState := { st with remoteCalls := st.remoteCalls + 1 }
    match remote st.remoteCalls with
    | .fail => (none, st')
    | .ok none => (none, st')
    | .ok (some cards) =>
      match collectPrices cards with
      | .error _ => (none, st')
      | .ok [] => (none, st')
      | .ok (p :: ps) =>
        let m := ps.foldl min p
        (some m, { st' with prices_cache := (slug, m) :: st'.prices_cache })

/-- `handle_player_selection` (`bot.py` lines 179-208).  When no player
argument is passed (the `SELECT_PLAYER` state), the selection text is matched
against the stored candidate list `context.user_data.get("players", [])` by
`next((p for p in players if p["displayName"] == selected_name), None)` —
first exact display-name match, `None` otherwise.  No match replies with the
selection error; otherwise the price lookup runs (abstracted here to its
result `price : String → Option ℚ`, the price-cache frame being the subject
of the `get_min_price` theorems).  Every branch returns
`ConversationHandler.END` and leaves `user_data` unchanged. -/
def handle_player_selection (price : String → Option ℚ) (sess : Session)
    (text : String) (playerArg : Option Player) : DialogOut :=
  let player : Option Player :=
    match playerArg with
    | some p => some p
    | none => (sess.players.getD []).find? (fun p => p.displayName == text)
  match player with
  | none => { replies := [.selectionError], conv := .awaitingName, sess := sess }
  | some p =>
    match price p.slug with
    | none => { replies := [.noCards p.displayName], conv := .awaitingName, sess := sess }
    | some m => { replies := [.priceMsg p.displayName m], conv := .awaitingName, sess := sess }

/-- Python `text.strip()`: remove leading and trailing whitespace
(modelled over the ASCII whitespace of `Char.isWhitespace`; the claims only
exercise plain spaces). -/
def pyStrip (s : String) : String :=
  ⟨((s.data.dropWhile Char.isWhitespace).reverse.dropWhile Char.isWhitespace).reverse⟩

/-- `handle_text` (`bot.py` lines 149-177).  The input is stripped
(`update.message.text.strip()`, modelled by `pyStrip`); an empty result
is rejected.  Otherwise `search_players` runs on the stripped name: no
players → not-found reply; two or more → a keyboard of the first five
display names (`players[:5]`, one name per row) is presented, the *full*
result list is stored under `user_data["players"]`, and the state becomes
`SELECT_PLAYER`; exactly one → selection is resolved immediately with
`players[0]`. -/
def handle_text (remote : Nat → SearchResp) (price : String → Option ℚ)
    (st : SearchState) (sess : Session) (text : String) : DialogOut × SearchState :=
  let name := pyStrip text
  if name = "" then
    ({ replies := [.emptyName], conv := .awaitingName, sess := sess }, st)
  else
    let res := search_players remote st name
    match res.1 with
    | [] => ({ replies := [.notFound], conv := .awaitingName, sess := sess }, res.2)
    | [p] => (handle_player_selection price sess text (some p), res.2)
    | players =>
      ({ replies := [.menu ((players.take 5).map Player.displayName)],
         conv := .awaitingSelection,
         sess := { players := some players } }, res.2)

/-- Outcome of one keep-alive GET: a raised error (connection failure /
timeout), or a response with its status code (`requests.get` does not raise
on a bad status; `self_ping` never calls `raise_for_status`). -/
inductive PingResp where
  | exn
  | resp (status : Nat)
deriving DecidableEq, Repr

/-- Log line emitted by one keep-alive iteration. -/
inductive LogEntry where
  | info
  | warning
  | error
deriving DecidableEq, Repr

/-- The exception type caught by `self_ping`'s blanket `except Exception`. -/
inductive ReqExn where
  | requestException
deriving DecidableEq, Repr

/-- The `try` body of one `self_ping` iteration (`bot.py` lines 43-47):
a 200 logs info, any other status logs a warning, a raised error escapes
the body. -/
def ping_body (r : PingResp) : Except ReqExn LogEntry :=
  match r with
  | .exn => .error .requestException
  | .resp status => .ok (if status = 200 then .info else .warning)

/-- One full `self_ping` iteration (`bot.py` lines 42-49): the `except
Exception` clause turns any escaped error into an error-level log line, so
the iteration is total — it always yields exactly one log entry. -/
def ping_iteration (r : PingResp) : LogEntry :=
  match ping_body r with
  | .ok l => l
  | .error _ => .error

/-- The first `n` iterations of the `while True` loop of `self_ping`
(`bot.py` lines 41-50): the log trace after `n` sleeps-and-pings.  Iteration
`k` consumes oracle response `k`; nothing an iteration produces can prevent
the next one. -/
def self_ping (remote : Nat → PingResp) : Nat → List LogEntry
  | 0 => []
  | n + 1 => self_ping remote n ++ [ping_iteration (remote n)]

/-! ### Helper lemmas -/

/-- A freshly written cache binding is the one a lookup of its key finds. -/
theorem lookupCache_cons_self {α : Type} (c : List (String × α)) (k : String) (v : α) :
    lookupCache ((k, v) :: c) k = some v := by
  simp [lookupCache, List.find?_cons_of_pos]

/-- If the first call to `search_players` returns a non-empty list, the call
left the cache holding exactly that list under the searched name, so an
immediate second call is a pure cache hit: same result, state untouched. -/
theorem search_players_stable (remote : Nat → SearchResp) (st : SearchState) (name : String)
    (hne : (search_players remote st name).1 ≠ []) :
    search_players remote ((search_players remote st name).2) name
      = ((search_players remote st name).1, (search_players remote st name).2) := by
  unfold search_players at *
  cases hc : lookupCache st.players_cache name with
  | some cached =>
    cases he : cached.isEmpty with
    | true =>
      cases hr : remote st.remoteCalls with
      | ok players =>
        simp only [hc, he, hr, if_true] at hne ⊢
        have hlk := lookupCache_cons_self st.players_cache name players
        simp only [hlk]
        simp only [List.isEmpty_iff]
        simp [hne]
      | fail =>
        simp [hc, he, hr] at hne
    | false =>
      simp [hc, he]
  | none =>
    cases hr : remote st.remoteCalls with
    | ok players =>
      simp only [hc, hr] at hne ⊢
      have hlk := lookupCache_cons_self st.players_cache name players
      simp only [hlk]
      simp only [List.isEmpty_iff]
      simp [hne]
    | fail =>
      simp [hc, hr] at hne

/-- A left fold of `min` never exceeds its starting value. -/
theorem foldl_min_le_init (ps : List ℚ) (p : ℚ) : ps.foldl min p ≤ p := by
  induction ps generalizing p with
  | nil => simp
  | cons q qs ih => exact le_trans (ih (min p q)) (min_le_left p q)

/-- A left fold of `min` is a lower bound of the start and every element. -/
theorem foldl_min_le (ps : List ℚ) (p : ℚ) : ∀ x ∈ p :: ps, ps.foldl min p ≤ x := by
  induction ps generalizing p with
  | nil =>
    intro x hx
    simp only [List.mem_singleton] at hx
    simp [hx]
  | cons q qs ih =>
    intro x hx
    rw [List.foldl_cons]
    rcases List.mem_cons.mp hx with rfl | h
    · exact le_trans (foldl_min_le_init qs (min x q)) (min_le_left x q)
    · rcases List.mem_cons.mp h with rfl | h'
      · exact le_trans (foldl_min_le_init qs (min p x)) (min_le_right p x)
      · exact ih (min p q) x (List.mem_cons_of_mem _ h')

/-- A left fold of `min` is the start or one of the elements. -/
theorem foldl_min_mem (ps : List ℚ) (p : ℚ) : ps.foldl min p ∈ p :: ps := by
  induction ps generalizing p with
  | nil => simp
  | cons q qs ih =>
    have h := ih (min p q)
    rcases List.mem_cons.mp h with h1 | h1
    · rcases min_choice p q with hm | hm
      · rw [List.foldl_cons, h1, hm]; exact List.mem_cons_self _ _
      · rw [List.foldl_cons, h1, hm]
        exact List.mem_cons_of_mem _ (List.mem_cons_self _ _)
    · rw [List.foldl_cons]
      exact List.mem_cons_of_mem _ (List.mem_cons_of_mem _ h1)

/-- When every selected price string coerces, the comprehension succeeds and
collects exactly the prices `selectedPrices` describes. -/
theorem collectPrices_eq (cards : List Card)
    (h : cards.all (fun c =>
        match c.price with
        | none => true
        | some s => (s == "") || (parseDecimal s).isSome) = true) :
    collectPrices cards = .ok (selectedPrices cards) := by
  induction cards with
  | nil => rfl
  | cons c cs ih =>
    rw [List.all_cons, Bool.and_eq_true] at h
    obtain ⟨hc, hcs⟩ := h
    cases hp : c.price with
    | none =>
      simp only [collectPrices, selectedPrices, List.filterMap_cons, hp]
      exact ih hcs
    | some s =>
      by_cases hs : s = ""
      · subst hs
        simp only [collectPrices, selectedPrices, List.filterMap_cons, hp, if_pos rfl]
        exact ih hcs
      · rw [hp] at hc
        have hps : (parseDecimal s).isSome := by
          rcases Bool.or_eq_true _ _ |>.mp hc with h' | h'
          · exact absurd (beq_iff_eq.mp h') hs
          · exact h'
        obtain ⟨q, hq⟩ := Option.isSome_iff_exists.mp hps
        simp only [collectPrices, selectedPrices, List.filterMap_cons, hp,
          if_neg hs, hq, ih hcs]

/-! ### Claim theorems -/

/-- C4: refuted as stated — `search_players` does *not* survive every JSON
body.  The failing input is the standard GraphQL error response
`{"data": null}` with HTTP status 200: the chain
`data.get("data", {}).get("football", {})` calls `.get` on `None`, raising
`AttributeError`, which neither `except requests.exceptions.RequestException`
nor `except KeyError` catches, so the exception escapes to the caller
instead of degrading to `[]`. -/
theorem C4_attribute_escape :
    search_players_remote (.resp 200 (some (.obj [("data", Json.null)])))
      = .error .attributeError := rfl

/-- C8: the keep-alive loop is failure-proof.  Every iteration is total —
a raised error is caught by `except Exception` and logged at error level, a
non-200 status is merely logged as a warning — and the trace after `n + 1`
intervals always extends the trace after `n` intervals by exactly the entry
of iteration `n`, whatever the earlier outcomes were; so no outcome ever
terminates the loop or suppresses the next iteration. -/
theorem C8_keepalive_never_stops (remote : Nat → PingResp) (n : Nat) :
    (self_ping remote n).length = n ∧
    self_ping remote (n + 1) = self_ping remote n ++ [ping_iteration (remote n)] ∧
    ping_iteration PingResp.exn = LogEntry.error ∧
    ping_iteration (PingResp.resp 500) = LogEntry.warning ∧
    ping_iteration (PingResp.resp 200) = LogEntry.info := by
  refine ⟨?_, rfl, rfl, rfl, rfl⟩
  induction n with
  | zero => rfl
  | succ k ih => simp [self_ping, ih]

/-- C9: a message arriving in the selection state while the session holds no
stored candidate list falls back to matching against `[]`
(`user_data.get("players", [])`), so every selection text yields the
selection-error reply and the conversation resets — no exception. -/
theorem C9_no_stored_candidates (price : String → Option ℚ) (text : String) :
    handle_player_selection price ⟨none⟩ text none
      = { replies := [.selectionError], conv := .awaitingName, sess := ⟨none⟩ } := rfl

/-- One call to `search_players` makes at most one remote call. -/
theorem search_players_calls (remote : Nat → SearchResp) (st : SearchState) (name : String) :
    (search_players remote st name).2.remoteCalls ≤ st.remoteCalls + 1 := by
  unfold search_players
  cases hc : lookupCache st.players_cache name with
  | some cached =>
    by_cases he : cached = []
    · subst he
      cases remote st.remoteCalls <;> simp
    · simp [he]
  | none => cases remote st.remoteCalls <;> simp

/-- Oracle for the C1 counterexample: the remote search answers the empty
list on the first call and a one-player list on the second. -/
def c1remote : Nat → SearchResp :=
  fun n => if n = 0 then .ok [] else .ok [⟨"messi", "Messi"⟩]

/-- C1 counterexample: starting from an empty cache, two calls to
`search_players` with the same string make *two* remote calls and return
*different* results when the first response is the empty list — the empty
list is cached but, being falsy, is never served (`if cached:`), so the
claim's "including when the first call's successful response was an empty
list" fails on both counts. -/
theorem C1_counterexample :
    ¬ ((search_players c1remote
          (search_players c1remote ⟨[], 0⟩ "x").2 "x").2.remoteCalls ≤ 1 ∧
       (search_players c1remote
          (search_players c1remote ⟨[], 0⟩ "x").2 "x").1
         = (search_players c1remote ⟨[], 0⟩ "x").1) := by decide

/-- C1 amended: within the TTL window, two calls to `search_players` with the
same string issue at most one remote call in total and return identical
results *provided the first call's result is non-empty*; a successfully
fetched empty list is written to the cache but the truthiness test
`if cached:` refuses to serve it, so in that case the second call issues a
fresh remote call whose result may differ. -/
theorem C1_cache_idempotent (remote : Nat → SearchResp) (st : SearchState) (name : String)
    (hne : (search_players remote st name).1 ≠ []) :
    search_players remote ((search_players remote st name).2) name
      = ((search_players remote st name).1, (search_players remote st name).2) ∧
    (search_players remote st name).2.remoteCalls ≤ st.remoteCalls + 1 :=
  ⟨search_players_stable remote st name hne, search_players_calls remote st name⟩

/-- Oracle for the C1 witness: the remote search always finds one player. -/
def c1wremote : Nat → SearchResp := fun _ => .ok [⟨"messi", "Messi"⟩]

/-- C1 witness: concrete instance of the amended idempotence — after a first
call that finds a player, the second call is a pure cache hit. -/
theorem C1_cache_idempotent_witness :
    search_players c1wremote ((search_players c1wremote ⟨[], 0⟩ "Messi").2) "Messi"
      = ((search_players c1wremote ⟨[], 0⟩ "Messi").1,
         (search_players c1wremote ⟨[], 0⟩ "Messi").2) ∧
    (search_players c1wremote ⟨[], 0⟩ "Messi").2.remoteCalls ≤ 0 + 1 :=
  C1_cache_idempotent c1wremote ⟨[], 0⟩ "Messi" (by decide)

/-- For a non-empty stripped input, whatever branch `handle_text` takes, the
search-cache state it returns is exactly the one produced by running
`search_players` on the *stripped* text — the stripped text is the key. -/
theorem handle_text_search_state (remote : Nat → SearchResp) (price : String → Option ℚ)
    (st : SearchState) (sess : Session) (text : String)
    (hne : pyStrip text ≠ "") :
    (handle_text remote price st sess text).2 = (search_players remote st (pyStrip text)).2 := by
  simp only [handle_text, if_neg hne]
  rcases (search_players remote st (pyStrip text)).1 with _ | ⟨p, _ | ⟨q, rest⟩⟩ <;> rfl

/-- Oracle for the C6 counterexample: the remote search always finds Messi. -/
def c6remote : Nat → SearchResp := fun _ => .ok [⟨"messi", "Messi"⟩]

/-- C6 counterexample: the raw text `" Messi "` and the raw text `"Messi"`
are *not* distinct cache keys.  `handle_text` strips the input
(`update.message.text.strip()`) before calling `search_players`, so after a
first message `" Messi "` the second message `"Messi"` is served from the
first message's cache entry — only one remote call is ever made — and no
entry exists under the raw key `" Messi "`. -/
theorem C6_counterexample :
    ((handle_text c6remote (fun _ => none)
        (handle_text c6remote (fun _ => none) ⟨[], 0⟩ ⟨none⟩ " Messi ").2
        ⟨none⟩ "Messi").2.remoteCalls = 1 ∧
     lookupCache ((handle_text c6remote (fun _ => none)
        ⟨[], 0⟩ ⟨none⟩ " Messi ").2).players_cache " Messi " = none) := by decide

/-- C6 amended: the search cache is keyed by the *stripped* search string
(still case-sensitive).  Two user inputs with the same stripped form — in
particular inputs differing only in surrounding whitespace — share one cache
key: after a first message whose (non-empty) search succeeded, the second
message leaves the search state untouched, i.e. it is served from the first
message's entry with no further remote call. -/
theorem C6_stripped_key (remote : Nat → SearchResp) (price : String → Option ℚ)
    (st : SearchState) (sess1 sess2 : Session) (t1 t2 : String)
    (heq : pyStrip t1 = pyStrip t2) (hne : pyStrip t1 ≠ "")
    (hfound : (search_players remote st (pyStrip t1)).1 ≠ []) :
    (handle_text remote price st sess1 t1).2 = (search_players remote st (pyStrip t1)).2 ∧
    (handle_text remote price ((handle_text remote price st sess1 t1).2) sess2 t2).2
      = (handle_text remote price st sess1 t1).2 := by
  have ha := handle_text_search_state remote price st sess1 t1 hne
  refine ⟨ha, ?_⟩
  have hb := handle_text_search_state remote price
    ((handle_text remote price st sess1 t1).2) sess2 t2 (heq ▸ hne)
  rw [hb, ← heq, ha, search_players_stable remote st (pyStrip t1) hfound]

/-- C6 witness: concrete instance of the amended key property with the
inputs `" Messi "` and `"Messi"`. -/
theorem C6_stripped_key_witness :
    (handle_text c6remote (fun _ => none) ⟨[], 0⟩ ⟨none⟩ " Messi ").2
      = (search_players c6remote ⟨[], 0⟩ (pyStrip " Messi ")).2 ∧
    (handle_text c6remote (fun _ => none)
        ((handle_text c6remote (fun _ => none) ⟨[], 0⟩ ⟨none⟩ " Messi ").2)
        ⟨none⟩ "Messi").2
      = (handle_text c6remote (fun _ => none) ⟨[], 0⟩ ⟨none⟩ " Messi ").2 :=
  C6_stripped_key c6remote (fun _ => none) ⟨[], 0⟩ ⟨none⟩ ⟨none⟩ " Messi " "Messi"
    (by decide) (by decide) (by decide)

/-- Six distinct players, one more than the menu bound. -/
def c3players : List Player :=
  [⟨"a", "A"⟩, ⟨"b", "B"⟩, ⟨"c", "C"⟩, ⟨"d", "D"⟩, ⟨"e", "E"⟩, ⟨"f", "F"⟩]

/-- Oracle for the C3 counterexample: the search returns six players. -/
def c3remote : Nat → SearchResp := fun _ => .ok c3players

/-- C3 counterexample: with six search results the menu is built from the
first five (`players[:5]`) but `user_data["players"]` stores the *full*
six-player list, so the stored candidate list is a strict superset of the
set used to build the menu: the sixth player sits in the stored list, yet is
not among the players the menu was built from (and its name is not on the
menu). -/
theorem C3_counterexample :
    (handle_text c3remote (fun _ => none) ⟨[], 0⟩ ⟨none⟩ "x").1.sess.players
        = some c3players ∧
    (handle_text c3remote (fun _ => none) ⟨[], 0⟩ ⟨none⟩ "x").1.replies
        = [.menu ["A", "B", "C", "D", "E"]] ∧
    (⟨"f", "F"⟩ : Player) ∈ c3players ∧
    (⟨"f", "F"⟩ : Player) ∉ c3players.take 5 := by decide

/-- C3 amended: for every search result of two or more players, the menu
holds the display names of the first `min 5 n` players — so at most five
entries — while the stored candidate list is the *full* result list: it
contains every player used to build the menu (and coincides with that set
exactly when the result has at most five players), and the handler moves to
the selection state. -/
theorem C3_menu_truncation (remote : Nat → SearchResp) (price : String → Option ℚ)
    (st : SearchState) (sess : Session) (text : String)
    (hne : pyStrip text ≠ "")
    (h2 : 2 ≤ (search_players remote st (pyStrip text)).1.length) :
    (handle_text remote price st sess text).1.replies
      = [.menu (((search_players remote st (pyStrip text)).1.take 5).map Player.displayName)] ∧
    (((search_players remote st (pyStrip text)).1.take 5).map Player.displayName).length ≤ 5 ∧
    (handle_text remote price st sess text).1.sess.players
      = some (search_players remote st (pyStrip text)).1 ∧
    (∀ p ∈ (search_players remote st (pyStrip text)).1.take 5,
        p ∈ (search_players remote st (pyStrip text)).1) ∧
    ((search_players remote st (pyStrip text)).1.length ≤ 5 →
        (search_players remote st (pyStrip text)).1.take 5
          = (search_players remote st (pyStrip text)).1) ∧
    (handle_text remote price st sess text).1.conv = .awaitingSelection := by
  rcases hps : (search_players remote st (pyStrip text)).1 with _ | ⟨p, _ | ⟨q, rest⟩⟩
  · rw [hps] at h2; simp at h2
  · rw [hps] at h2; simp at h2
  · refine ⟨?_, ?_, ?_, ?_, ?_, ?_⟩
    · simp only [handle_text, if_neg hne, hps]
    · simp [List.length_take]
    · simp only [handle_text, if_neg hne, hps]
    · intro x hx; exact List.take_subset 5 _ hx
    · intro hlen; exact List.take_of_length_le hlen
    · simp only [handle_text, if_neg hne, hps]

/-- Oracle for the C3 witness: the search returns exactly two players. -/
def c3wremote : Nat → SearchResp := fun _ => .ok [⟨"m1", "Messi"⟩, ⟨"m2", "Messi Jr"⟩]

/-- C3 witness: concrete instance of the amended menu property with a
two-player search result. -/
theorem C3_menu_truncation_witness :
    (handle_text c3wremote (fun _ => none) ⟨[], 0⟩ ⟨none⟩ "Messi").1.replies
      = [.menu (((search_players c3wremote ⟨[], 0⟩ (pyStrip "Messi")).1.take 5).map
            Player.displayName)] ∧
    (((search_players c3wremote ⟨[], 0⟩ (pyStrip "Messi")).1.take 5).map
        Player.displayName).length ≤ 5 ∧
    (handle_text c3wremote (fun _ => none) ⟨[], 0⟩ ⟨none⟩ "Messi").1.sess.players
      = some (search_players c3wremote ⟨[], 0⟩ (pyStrip "Messi")).1 ∧
    (∀ p ∈ (search_players c3wremote ⟨[], 0⟩ (pyStrip "Messi")).1.take 5,
        p ∈ (search_players c3wremote ⟨[], 0⟩ (pyStrip "Messi")).1) ∧
    ((search_players c3wremote ⟨[], 0⟩ (pyStrip "Messi")).1.length ≤ 5 →
        (search_players c3wremote ⟨[], 0⟩ (pyStrip "Messi")).1.take 5
          = (search_players c3wremote ⟨[], 0⟩ (pyStrip "Messi")).1) ∧
    (handle_text c3wremote (fun _ => none) ⟨[], 0⟩ ⟨none⟩ "Messi").1.conv
      = .awaitingSelection :=
  C3_menu_truncation c3wremote (fun _ => none) ⟨[], 0⟩ ⟨none⟩ "Messi"
    (by decide) (by decide)

/-- C7: in the selection state, a text that matches no stored display name
exactly makes `next(...)` yield `None`, so the reply is the selection-error
message, the session is untouched, and the handler returns
`ConversationHandler.END` — the conversation resets to awaiting a name. -/
theorem C7_selection_mismatch (price : String → Option ℚ) (sess : Session) (text : String)
    (hnomatch : ∀ p ∈ sess.players.getD [], p.displayName ≠ text) :
    handle_player_selection price sess text none
      = { replies := [.selectionError], conv := .awaitingName, sess := sess } := by
  have hfind : (sess.players.getD []).find? (fun p => p.displayName == text) = none := by
    rw [List.find?_eq_none]
    intro p hp
    simpa using hnomatch p hp
  simp [handle_player_selection, hfind]

/-- C7 witness: stored candidate list `[{Messi, slug-a}]` and selection text
`"Ronaldo"`. -/
theorem C7_selection_mismatch_witness :
    handle_player_selection (fun _ => some 1) ⟨some [⟨"slug-a", "Messi"⟩]⟩ "Ronaldo" none
      = { replies := [.selectionError], conv := .awaitingName,
          sess := ⟨some [⟨"slug-a", "Messi"⟩]⟩ } :=
  C7_selection_mismatch (fun _ => some 1) ⟨some [⟨"slug-a", "Messi"⟩]⟩ "Ronaldo" (by decide)

/-- C10: when the stored candidate list is `xs ++ p :: ys` where `p` is the
first player whose display name equals the selection text, the generator
`next((p for p in players if ...), None)` resolves `p` — handling the
selection without a player argument is the same as handling it with `p`
passed directly, so the price lookup uses the first match in stored order. -/
theorem C10_first_match (price : String → Option ℚ) (text : String)
    (xs ys : List Player) (p : Player)
    (hmatch : p.displayName = text)
    (hfirst : ∀ q ∈ xs, q.displayName ≠ text) :
    handle_player_selection price ⟨some (xs ++ p :: ys)⟩ text none
      = handle_player_selection price ⟨some (xs ++ p :: ys)⟩ text (some p) := by
  have hfind : (xs ++ p :: ys).find? (fun q => q.displayName == text) = some p := by
    induction xs with
    | nil => simp [List.find?_cons_of_pos, hmatch]
    | cons a as ih =>
      have ha : (a.displayName == text) = false := by
        simpa using hfirst a (List.mem_cons_self _ _)
      rw [List.cons_append, List.find?_cons_of_neg _ (by simp [ha])]
      exact ih (fun q hq => hfirst q (List.mem_cons_of_mem _ hq))
  simp [handle_player_selection, hfind]

/-- Price table for the C10 witness, distinguishing the duplicate slugs. -/
def c10price : String → Option ℚ := fun s => if s == "s1" then some 1 else some 2

/-- C10 witness: two stored players both named `"Messi"`; the resolved
player is the first one, as the reported price (that of slug `s1`) shows. -/
theorem C10_first_match_witness :
    (handle_player_selection c10price ⟨some [⟨"s1", "Messi"⟩, ⟨"s2", "Messi"⟩]⟩ "Messi" none
      = handle_player_selection c10price
          ⟨some [⟨"s1", "Messi"⟩, ⟨"s2", "Messi"⟩]⟩ "Messi" (some ⟨"s1", "Messi"⟩)) ∧
    (handle_player_selection c10price
        ⟨some [⟨"s1", "Messi"⟩, ⟨"s2", "Messi"⟩]⟩ "Messi" none).replies
      = [.priceMsg "Messi" 1] :=
  ⟨C10_first_match c10price "Messi" [] [⟨"s2", "Messi"⟩] ⟨"s1", "Messi"⟩ rfl
      (by intro q hq; simp at hq),
   by decide⟩

/-- On a cache miss, one call to `get_min_price` makes exactly one remote
call, whatever the response was. -/
theorem get_min_price_one_call (remote : Nat → PriceResp) (st : PriceState) (slug : String)
    (hmiss : lookupCache st.prices_cache slug = none) :
    (get_min_price remote st slug).2.remoteCalls = st.remoteCalls + 1 := by
  simp only [get_min_price, hmiss]
  cases remote st.remoteCalls with
  | fail => rfl
  | ok op =>
    cases op with
    | none => rfl
    | some cards =>
      cases hcp : collectPrices cards with
      | error e => simp [hcp]
      | ok qs => cases qs <;> simp [hcp]

/-- A `None` result from `get_min_price` can only come from the remote path
(a cache hit returns the cached rational), and every `None` path leaves the
price cache untouched. -/
theorem get_min_price_none_frame (remote : Nat → PriceResp) (st : PriceState) (slug : String)
    (hnone : (get_min_price remote st slug).1 = none) :
    lookupCache st.prices_cache slug = none ∧
    (get_min_price remote st slug).2.prices_cache = st.prices_cache := by
  cases hc : lookupCache st.prices_cache slug with
  | some v => simp [get_min_price, hc] at hnone
  | none =>
    refine ⟨rfl, ?_⟩
    simp only [get_min_price, hc] at hnone ⊢
    cases hr : remote st.remoteCalls with
    | fail => rfl
    | ok op =>
      rw [hr] at hnone
      cases op with
      | none => rfl
      | some cards =>
        cases hcp : collectPrices cards with
        | error e => simp [hcp]
        | ok qs =>
          cases qs with
          | nil => simp [hcp]
          | cons p ps => simp [hcp] at hnone

/-- C5: `get_min_price` caches only definite numeric outcomes.  After any
call that returned the absent result — caught failure, missing player,
coercion error or empty price list — the price cache is exactly what it was,
that call made one remote call, and an immediate second call with the same
slug misses the cache again and issues a fresh remote call (two in total). -/
theorem C5_no_negative_caching (remote : Nat → PriceResp) (st : PriceState) (slug : String)
    (hnone : (get_min_price remote st slug).1 = none) :
    (get_min_price remote st slug).2.prices_cache = st.prices_cache ∧
    (get_min_price remote st slug).2.remoteCalls = st.remoteCalls + 1 ∧
    (get_min_price remote ((get_min_price remote st slug).2) slug).2.remoteCalls
      = st.remoteCalls + 2 := by
  obtain ⟨hmiss, hframe⟩ := get_min_price_none_frame remote st slug hnone
  have h1 := get_min_price_one_call remote st slug hmiss
  refine ⟨hframe, h1, ?_⟩
  have hmiss2 : lookupCache (get_min_price remote st slug).2.prices_cache slug = none := by
    rw [hframe]; exact hmiss
  rw [get_min_price_one_call remote ((get_min_price remote st slug).2) slug hmiss2, h1]

/-- Oracle for the C5 witness: the remote pricing request always fails. -/
def c5remote : Nat → PriceResp := fun _ => .fail

/-- C5 witness: concrete instance — a failed lookup caches nothing and the
retry goes back to the remote API. -/
theorem C5_no_negative_caching_witness :
    (get_min_price c5remote ⟨[], 0⟩ "messi").2.prices_cache = ([] : List (String × ℚ)) ∧
    (get_min_price c5remote ⟨[], 0⟩ "messi").2.remoteCalls = 0 + 1 ∧
    (get_min_price c5remote ((get_min_price c5remote ⟨[], 0⟩ "messi").2) "messi").2.remoteCalls
      = 0 + 2 :=
  C5_no_negative_caching c5remote ⟨[], 0⟩ "messi" (by decide)

/-- C2: the price computation of `get_min_price`.  On a cache miss with a
found player, the comprehension selects the `price` of every card whose
price is present and non-empty (each coercing, as the hypothesis demands —
an uncoercible selected price would instead raise `ValueError`, caught into
the absent result): when nothing is selected the result is absent (`None`),
and otherwise it is `min` of the selected prices — a selected price that is
a lower bound of them all.  In particular prices `["1.5", "0.9", ""]` give
`0.9`, and zero cards or all-empty prices give the absent result. -/
theorem C2_min_price (remote : Nat → PriceResp) (st : PriceState) (slug : String)
    (cards : List Card)
    (hmiss : lookupCache st.prices_cache slug = none)
    (hresp : remote st.remoteCalls = .ok (some cards))
    (hparse : cards.all (fun c =>
        match c.price with
        | none => true
        | some s => (s == "") || (parseDecimal s).isSome) = true) :
    (selectedPrices cards = [] → (get_min_price remote st slug).1 = none) ∧
    (∀ q qs, selectedPrices cards = q :: qs →
      ∃ m, (get_min_price remote st slug).1 = some m ∧
        m ∈ selectedPrices cards ∧ ∀ x ∈ selectedPrices cards, m ≤ x) := by
  have hcol := collectPrices_eq cards hparse
  constructor
  · intro hsel
    rw [hsel] at hcol
    simp [get_min_price, hmiss, hresp, hcol]
  · intro q qs hsel
    rw [hsel] at hcol
    refine ⟨qs.foldl min q, ?_, ?_, ?_⟩
    · simp [get_min_price, hmiss, hresp, hcol]
    · rw [hsel]; exact foldl_min_mem qs q
    · rw [hsel]; exact foldl_min_le qs q

/-- The card list of the spec's worked example: prices "1.5", "0.9", "". -/
def c2cards : List Card := [⟨some "1.5"⟩, ⟨some "0.9"⟩, ⟨some ""⟩]

/-- Oracle for the C2 witness: the pricing query returns the example cards. -/
def c2remote : Nat → PriceResp := fun _ => .ok (some c2cards)

/-- C2 witness: on the cards with prices `["1.5", "0.9", ""]` the returned
minimum is a selected price bounding the selected collection `[1.5, 0.9]`
from below — and it is `0.9` — while for a response with zero cards the
result is absent. -/
theorem C2_min_price_witness :
    (∃ m, (get_min_price c2remote ⟨[], 0⟩ "messi").1 = some m ∧
        m ∈ selectedPrices c2cards ∧ ∀ x ∈ selectedPrices c2cards, m ≤ x) ∧
    (get_min_price c2remote ⟨[], 0⟩ "messi").1 = some (9 / 10 : ℚ) ∧
    (get_min_price (fun _ => .ok (some [])) ⟨[], 0⟩ "messi").1 = none :=
  ⟨(C2_min_price c2remote ⟨[], 0⟩ "messi" c2cards rfl rfl (by decide)).2
      (3 / 2) [9 / 10] (by with_unfolding_all decide),
   by with_unfolding_all decide,
   (C2_min_price (fun _ => .ok (some [])) ⟨[], 0⟩ "messi" [] rfl rfl (by decide)).1
      (by decide)⟩
